import Mathlib

set_option maxRecDepth 8000

/-!
Verification of the LocalSend plugin core (discovery + transfer engines)
against its design specification.

The TypeScript source is shallowly embedded: network, filesystem and
clock effects become explicit parameters (probe outcomes, response
statuses, a path-to-content map), and the stateful upload loop becomes a
pure function producing a trace of observable events (progress callbacks
and network requests) together with an optional error, mirroring the
thrown exception.
-/

namespace LocalSend

/-! ## Data model (discovery.ts / transfer.ts interfaces) -/

/-- Embeds the exported `LocalSendDevice` interface of discovery.ts.
Optional TypeScript fields become `Option`. -/
structure LocalSendDevice where
  «alias» : String
  version : String
  deviceModel : Option String
  deviceType : Option String
  port : Nat
  protocol : String
  ip : String
  fingerprint : String
  download : Option Bool
  deriving Repr, DecidableEq

/-- The peer announcement as decoded from a probe response body by
`JSON.parse` in `registerWithDevice` (typed `Omit<LocalSendDevice, "ip">`
in the source).  Fields the peer may omit, or that the code treats as
possibly-falsy, are `Option`; an `ip` field in the body is representable
but, as the theorems show, never used. -/
structure RawDevice where
  «alias» : String
  version : String
  deviceModel : Option String
  deviceType : Option String
  port : Option Nat
  protocol : Option String
  ip : Option String
  fingerprint : String
  download : Option Bool
  deriving Repr, DecidableEq

/-- Embeds the `TransferSession` interface of transfer.ts: a session id
and a fileId-to-token association (the JSON object becomes an assoc
list). -/
structure TransferSession where
  sessionId : String
  files : List (String × String)
  deriving Repr, DecidableEq

/-- JavaScript `a || b` on a possibly-absent string: `undefined` and the
empty string are falsy. -/
def jsOrString (a : Option String) (b : String) : String :=
  match a with
  | none => b
  | some s => if s = "" then b else s

/-- JavaScript `a || b` on a possibly-absent number: `undefined` and `0`
are falsy. -/
def jsOrNat (a : Option Nat) (b : Nat) : Nat :=
  match a with
  | none => b
  | some n => if n = 0 then b else n

/-! ## Transfer negotiator: `prepareUpload` (transfer.ts lines 161-205)

The HTTP response is a status code plus a body; what `prepareUpload`
does with the body on a 200 is `JSON.parse(response.body) as
TransferSession`, which either yields a session or throws a JSON syntax
error.  The embedding represents the body by the outcome of that parse:
`some s` when the body is valid JSON for a session, `none` when
`JSON.parse` would throw. -/

/-- The errors `prepareUpload` can throw: a human-readable negotiation
message from the status-code switch, or the raw `JSON.parse` syntax
error (which the switch never produces). -/
inductive PrepError where
  | mapped (msg : String)
  | jsonParse
  deriving Repr, DecidableEq

/-- The `switch (response.statusCode)` of transfer.ts lines 180-200,
with its default value "Upload rejected". -/
def errorMsgFor (status : Nat) : String :=
  if status = 400 then "Invalid request"
  else if status = 401 then "PIN required"
  else if status = 403 then "Request rejected by receiver"
  else if status = 409 then "Receiver is busy with another transfer"
  else if status = 429 then "Too many requests"
  else if status = 500 then "Receiver error"
  else "Upload rejected"

/-- Embeds `prepareUpload`'s response handling (transfer.ts lines
174-204): 204 returns the sentinel session, any other non-200 status
throws the mapped message, and 200 returns the parsed body or throws the
parse error. -/
def prepareUpload (status : Nat) (bodyParse : Option TransferSession) :
    Except PrepError TransferSession :=
  if status = 204 then
    .ok { sessionId := "", files := [] }
  else if status ≠ 200 then
    .error (.mapped (errorMsgFor status))
  else
    match bodyParse with
    | some session => .ok session
    | none => .error .jsonParse

/-! ## Discovery engine (discovery.ts)

`registerWithDevice` issues one probe; the network's behaviour at a
probed (address, protocol) pair is a `ProbeOutcome`.  The promise
resolves with a device only when the response body parses; every
failure mode resolves with `null` (never rejects), so errors cannot
escape discovery.  `scanNetwork` aggregates the probes; completion
order is non-deterministic in the source and probes abandoned at the
deadline contribute nothing, which the embedding subsumes by
quantifying over the outcome assignment (an abandoned or dropped probe
is an outcome that yields nothing). -/

/-- `DEFAULT_PORT` of discovery.ts. -/
def DEFAULT_PORT : Nat := 53317

/-- What the network did at one probed (address, protocol) pair:
the body parsed as a peer announcement, the body failed to parse,
the request errored, or it timed out. -/
inductive ProbeOutcome where
  | parsed (raw : RawDevice)
  | parseFailure
  | connError
  | timeout
  deriving Repr, DecidableEq

/-- Embeds `registerWithDevice` (discovery.ts lines 72-123): on a parsed
body it resolves the spread `{...device, protocol: device.protocol ||
"https", port: device.port || port || 53317, ip}`; on parse failure,
request error, or timeout it resolves `null`. -/
def registerWithDevice (ip : String) (port : Nat) (outcome : ProbeOutcome) :
    Option LocalSendDevice :=
  match outcome with
  | .parsed raw =>
      some {
        «alias» := raw.«alias»
        version := raw.version
        deviceModel := raw.deviceModel
        deviceType := raw.deviceType
        port := jsOrNat raw.port (jsOrNat (some port) 53317)
        protocol := jsOrString raw.protocol "https"
        ip := ip
        fingerprint := raw.fingerprint
        download := raw.download }
  | .parseFailure => none
  | .connError => none
  | .timeout => none

/-- Splits a character list at each dot, as `String.prototype.split(".")`
does (accumulator holds the current segment reversed). -/
def splitDotAux (cur : List Char) : List Char → List (List Char)
  | [] => [cur.reverse]
  | c :: rest =>
      if c = '.' then cur.reverse :: splitDotAux [] rest
      else splitDotAux (c :: cur) rest

/-- Joins segments with dots, as `Array.prototype.join(".")` does. -/
def joinDots : List (List Char) → List Char
  | [] => []
  | [p] => p
  | p :: rest => p ++ '.' :: joinDots rest

/-- Embeds the subnet computation of scanNetwork (discovery.ts line 132):
the first three dot-separated octets rejoined with dots. -/
def subnetOf (ip : String) : String :=
  String.mk (joinDots ((splitDotAux [] ip.data).take 3))

/-- Decimal digits of a natural number (fuel-based so the kernel can
evaluate it). -/
def natCharsAux : Nat → Nat → List Char
  | 0, _ => []
  | fuel + 1, n =>
      if n < 10 then [Nat.digitChar n]
      else natCharsAux fuel (n / 10) ++ [Nat.digitChar (n % 10)]

/-- Decimal rendering of a natural number, as template interpolation of
a JS number renders it. -/
def natChars (n : Nat) : List Char := natCharsAux (n + 1) n

/-- The target address of one probe: subnet prefix, a dot, the host
suffix. -/
def mkTarget (subnet : String) (i : Nat) : String :=
  String.mk (subnet.data ++ '.' :: natChars i)

/-- Embeds the probe enumeration of `scanNetwork` (discovery.ts lines
131-150): for each local address, host suffixes 1..254 over its /24
prefix, self-addresses skipped, one probe per protocol https then
http. -/
def probeTargets (localIPs : List String) : List (String × String) :=
  localIPs.flatMap fun localIP =>
    (List.range' 1 254).flatMap fun i =>
      let targetIP := mkTarget (subnetOf localIP) i
      if localIPs.contains targetIP then []
      else [(targetIP, "https"), (targetIP, "http")]

/-- Embeds `scanNetwork`'s aggregation: every probe that yielded a
device contributes it to the result; failed, empty, or abandoned probes
contribute nothing. -/
def scanNetwork (localIPs : List String)
    (outcome : String → String → ProbeOutcome) : List LocalSendDevice :=
  (probeTargets localIPs).filterMap fun t =>
    registerWithDevice t.1 DEFAULT_PORT (outcome t.1 t.2)

/-- A concrete peer announcement used in witnesses: omits protocol and
port, and carries a (spoofed) ip field in the body. -/
def spoofRaw : RawDevice :=
  { «alias» := "peer", version := "2.0", deviceModel := some "mac"
    deviceType := some "desktop", port := none, protocol := none
    ip := some "9.9.9.9", fingerprint := "fp-1", download := some true }

/-- The device that probing 192.168.1.9 and receiving `spoofRaw` yields
(used in witnesses). -/
def yieldedDev : LocalSendDevice :=
  { «alias» := "peer", version := "2.0", deviceModel := some "mac"
    deviceType := some "desktop", port := 53317, protocol := "https"
    ip := "192.168.1.9", fingerprint := "fp-1", download := some true }


/-! ## SHA-256 (model of node crypto.createHash("sha256"))

`calculateSha256` (transfer.ts lines 67-75) pipes the file through a
hash accumulator: one `hash.update(chunk)` per stream chunk, then
`hash.digest("hex")`.  The accumulator is modelled concretely: the real
SHA-256 compression over eagerly processed 64-byte blocks, with the
partial block and the running length kept in the context, exactly the
incremental interface the crypto library exposes.  Bytes are `Nat`s
with explicit `% 2^32` word arithmetic. -/

/-- Truncation to a 32-bit word. -/
def w32 (n : Nat) : Nat := n % 4294967296

/-- 32-bit right rotation. -/
def rotr32 (x k : Nat) : Nat := w32 ((x >>> k) ||| (x <<< (32 - k)))

/-- SHA-256 big sigma 0. -/
def bsig0 (x : Nat) : Nat := rotr32 x 2 ^^^ rotr32 x 13 ^^^ rotr32 x 22

/-- SHA-256 big sigma 1. -/
def bsig1 (x : Nat) : Nat := rotr32 x 6 ^^^ rotr32 x 11 ^^^ rotr32 x 25

/-- SHA-256 small sigma 0. -/
def ssig0 (x : Nat) : Nat := rotr32 x 7 ^^^ rotr32 x 18 ^^^ (x >>> 3)

/-- SHA-256 small sigma 1. -/
def ssig1 (x : Nat) : Nat := rotr32 x 17 ^^^ rotr32 x 19 ^^^ (x >>> 10)

/-- SHA-256 choice function (bitwise not taken within 32 bits). -/
def chf (x y z : Nat) : Nat := (x &&& y) ^^^ ((x ^^^ 0xFFFFFFFF) &&& z)

/-- SHA-256 majority function. -/
def majf (x y z : Nat) : Nat := (x &&& y) ^^^ (x &&& z) ^^^ (y &&& z)

/-- The 64 SHA-256 round constants. -/
def shaK : List Nat :=
  [1116352408, 1899447441, 3049323471, 3921009573, 961987163,
   1508970993, 2453635748, 2870763221, 3624381080, 310598401,
   607225278, 1426881987, 1925078388, 2162078206, 2614888103,
   3248222580, 3835390401, 4022224774, 264347078, 604807628,
   770255983, 1249150122, 1555081692, 1996064986, 2554220882,
   2821834349, 2952996808, 3210313671, 3336571891, 3584528711,
   113926993, 338241895, 666307205, 773529912, 1294757372,
   1396182291, 1695183700, 1986661051, 2177026350, 2456956037,
   2730485921, 2820302411, 3259730800, 3345764771, 3516065817,
   3600352804, 4094571909, 275423344, 430227734, 506948616,
   659060556, 883997877, 958139571, 1322822218, 1537002063,
   1747873779, 1955562222, 2024104815, 2227730452, 2361852424,
   2428436474, 2756734187, 3204031479, 3329325298]

/-- The SHA-256 initial hash value. -/
def shaH0 : List Nat :=
  [1779033703, 3144134277, 1013904242, 2773480762, 1359893119,
   2600822924, 528734635, 1541459225]

/-- Big-endian 4-byte groups to 32-bit words. -/
def toWords : List Nat → List Nat
  | a :: b :: c :: d :: rest => (((a * 256 + b) * 256 + c) * 256 + d) :: toWords rest
  | _ => []

/-- One message-schedule extension step (newest word at the head). -/
def schedStep (rws : List Nat) : List Nat :=
  w32 (ssig1 (rws.getD 1 0) + rws.getD 6 0 + ssig0 (rws.getD 14 0) + rws.getD 15 0) :: rws

/-- The 64-word message schedule of one block. -/
def fullSchedule (ws : List Nat) : List Nat := (schedStep^[48] ws.reverse).reverse

/-- One SHA-256 round on the eight working words. -/
def roundStep (st : List Nat) (wk : Nat × Nat) : List Nat :=
  match st with
  | [a, b, c, d, e, f, g, h] =>
      let t1 := w32 (h + bsig1 e + chf e f g + wk.2 + wk.1)
      let t2 := w32 (bsig0 a + majf a b c)
      [w32 (t1 + t2), a, b, c, w32 (d + t1), e, f, g]
  | other => other

/-- The SHA-256 compression function on one 64-byte block. -/
def compress (h : List Nat) (block : List Nat) : List Nat :=
  let ws := fullSchedule (toWords block)
  let st := (ws.zip shaK).foldl roundStep h
  (h.zip st).map fun p => w32 (p.1 + p.2)

/-- Compresses every complete 64-byte block of the buffer, returning
the new chaining state and the remaining partial block. -/
def processBuf (s : List Nat) (buf : List Nat) : List Nat × List Nat :=
  if _hge : 64 ≤ buf.length then
    processBuf (compress s (buf.take 64)) (buf.drop 64)
  else (s, buf)
termination_by buf.length
decreasing_by simp [List.length_drop]; omega

/-- A 64-bit big-endian length field. -/
def lenBytes64 (bits : Nat) : List Nat :=
  (List.range 8).map fun i => (bits >>> (8 * (7 - i))) % 256

/-- SHA-256 padding for a message of `len` bytes: 0x80, zeros to 56 mod
64, then the bit length. -/
def shaPadding (len : Nat) : List Nat :=
  0x80 :: (List.replicate ((64 - (len + 9) % 64) % 64) 0 ++ lenBytes64 (8 * len))

/-- Lower-case hex of one 32-bit word. -/
def hexChars (n : Nat) : List Char :=
  (List.range 8).map fun i => Nat.digitChar ((n >>> (4 * (7 - i))) % 16)

/-- Hex digest string of a chaining state. -/
def toHex (ws : List Nat) : String := String.mk (ws.flatMap hexChars)

/-- SHA-256 of a whole message in one buffered pass: pad, then compress
every block. -/
def sha256Hex (msg : List Nat) : String :=
  toHex (processBuf shaH0 (msg ++ shaPadding msg.length)).1

/-- The incremental hash context: chaining state, buffered partial
block, total bytes absorbed (the crypto library's `Hash` object). -/
structure HashCtx where
  hs : List Nat
  buf : List Nat
  len : Nat
  deriving Repr, DecidableEq

/-- `crypto.createHash("sha256")`. -/
def hashInit : HashCtx := { hs := shaH0, buf := [], len := 0 }

/-- `hash.update(chunk)`: append the chunk and compress the complete
blocks. -/
def hashUpdate (c : HashCtx) (chunk : List Nat) : HashCtx :=
  let p := processBuf c.hs (c.buf ++ chunk)
  { hs := p.1, buf := p.2, len := c.len + chunk.length }

/-- `hash.digest("hex")`: pad the tail and finish. -/
def hashDigest (c : HashCtx) : String :=
  toHex (processBuf c.hs (c.buf ++ shaPadding c.len)).1

/-- Embeds `calculateSha256` (transfer.ts lines 67-75): the read stream
delivers the file as a chunk sequence; one `update` per chunk, then the
hex digest. -/
def calculateSha256 (chunks : List (List Nat)) : String :=
  hashDigest (chunks.foldl hashUpdate hashInit)

/-! ## File cataloger (transfer.ts createFileInfo and helpers)

The filesystem is a map from path to `FileData` (`none` models a path
that does not exist or cannot be read: `fs.existsSync` false, or
`statSync` / the read stream failing). -/

/-- What the filesystem holds at a readable path: the content bytes and
the stat timestamps. -/
structure FileData where
  content : List Nat
  mtimeIso : String
  atimeIso : String
  deriving Repr, DecidableEq

/-- Embeds the `FileInfo` interface of transfer.ts (the nested metadata
object flattened into the two optional timestamp fields). -/
structure FileInfo where
  id : String
  fileName : String
  size : Nat
  fileType : String
  sha256 : Option String
  modified : Option String
  accessed : Option String
  deriving Repr, DecidableEq

/-- Splits a character list at each occurrence of a separator. -/
def splitChAux (sep : Char) (cur : List Char) : List Char → List (List Char)
  | [] => [cur.reverse]
  | c :: rest =>
      if c = sep then cur.reverse :: splitChAux sep [] rest
      else splitChAux sep (c :: cur) rest

/-- `path.basename`: the last slash-separated component. -/
def basenameOf (p : String) : String :=
  String.mk ((splitChAux '/' [] p.data).getLastD [])

/-- `path.extname`: from the last dot of the basename (empty for no dot
and for a leading-dot-only name). -/
def extnameOf (p : String) : String :=
  match splitChAux '.' [] (basenameOf p).data with
  | [] => ""
  | [_] => ""
  | first :: rest =>
      if first = [] ∧ rest.length = 1 then ""
      else String.mk ('.' :: rest.getLastD [])

/-- Lower-casing, as `String.prototype.toLowerCase` on ASCII. -/
def lowerStr (s : String) : String := String.mk (s.data.map Char.toLower)

/-- The extension-to-MIME table of `getMimeType` (transfer.ts lines
43-62). -/
def mimeTypes : List (String × String) :=
  [(".txt", "text/plain"), (".html", "text/html"), (".css", "text/css"),
   (".js", "application/javascript"), (".json", "application/json"),
   (".png", "image/png"), (".jpg", "image/jpeg"), (".jpeg", "image/jpeg"),
   (".gif", "image/gif"), (".svg", "image/svg+xml"), (".pdf", "application/pdf"),
   (".zip", "application/zip"), (".mp3", "audio/mpeg"), (".mp4", "video/mp4"),
   (".doc", "application/msword"),
   (".docx", "application/vnd.openxmlformats-officedocument.wordprocessingml.document"),
   (".xls", "application/vnd.ms-excel"),
   (".xlsx", "application/vnd.openxmlformats-officedocument.spreadsheetml.sheet")]

/-- Embeds `getMimeType` (transfer.ts lines 41-64): table lookup on the
lower-cased extension, defaulting to the generic binary type (every
table value is non-empty, so JS falsiness coincides with absence). -/
def getMimeType (p : String) : String :=
  (mimeTypes.lookup (lowerStr (extnameOf p))).getD "application/octet-stream"

/-- Embeds `createFileInfo` (transfer.ts lines 97-113) at a readable
path, with the generated id passed in (`crypto.randomUUID` is external
entropy). -/
def createFileInfo (id : String) (p : String) (fd : FileData) : FileInfo :=
  { id := id
    fileName := basenameOf p
    size := fd.content.length
    fileType := getMimeType p
    sha256 := some (sha256Hex fd.content)
    modified := some fd.mtimeIso
    accessed := some fd.atimeIso }

/-! ## File uploader (transfer.ts uploadFile / sendFiles)

The observable behaviour of one `sendFiles` run is a trace of events —
progress callbacks and issued network requests, in program order — plus
the error it throws, if any.  The receiver's behaviour is a parameter:
the prepare-upload response (status and parsed body) and a status per
upload request. -/

/-- One observable step of a transfer run. -/
inductive Event where
  | progress (currentIndex totalCount : Nat) (fileName : String)
  | netPrepare
  | netUpload (fileId : String)
  deriving Repr, DecidableEq

/-- The errors a transfer run can throw, one constructor per `throw`
site: "File not found: <path>" while cataloging, the negotiation error
of `prepareUpload`, "No token for file: <name>", and "Upload failed
with status <status>: <body>". -/
inductive SendError where
  | fileNotFound (path : String)
  | transferRejected (e : PrepError)
  | missingToken (fileName : String)
  | uploadFailed (status : Nat)
  deriving Repr, DecidableEq

/-- The token lookup `session.files[fileInfo.id]` followed by the
`if (!token)` guard of uploadFile: an absent entry and an empty-string
token are both "no token". -/
def tokenFor (session : TransferSession) (id : String) : Option String :=
  match session.files.lookup id with
  | none => none
  | some t => if t = "" then none else some t

/-- `Event.isUpload e` holds exactly on upload-request events. -/
def Event.isUpload : Event → Bool
  | .netUpload _ => true
  | _ => false

/-- `Event.isProgress e` holds exactly on progress-callback events. -/
def Event.isProgress : Event → Bool
  | .progress _ _ _ => true
  | _ => false

/-- `Event.isNet e` holds exactly on network-request events. -/
def Event.isNet : Event → Bool
  | .netPrepare => true
  | .netUpload _ => true
  | _ => false

/-- Embeds `uploadFile` (transfer.ts lines 208-225): no token throws
before any request; otherwise the request is issued and a status other
than 200 and 204 throws. -/
def uploadFile (session : TransferSession) (fi : FileInfo) (status : Nat) :
    List Event × Option SendError :=
  match tokenFor session fi.id with
  | none => ([], some (.missingToken fi.fileName))
  | some _ =>
      ([.netUpload fi.id],
        if status ≠ 200 ∧ status ≠ 204 then some (.uploadFailed status) else none)

/-- Embeds the per-file loop of `sendFiles` (transfer.ts lines
257-267): progress before each file with the completed count, then the
upload; a thrown error aborts the remaining files. -/
def uploadLoop (session : TransferSession) (respOf : String → Nat) (total : Nat) :
    List FileInfo → Nat → List Event × Option SendError
  | [], _ => ([], none)
  | fi :: rest, completed =>
      let pre := Event.progress completed total fi.fileName
      let step := uploadFile session fi (respOf fi.id)
      match step.2 with
      | some e => (pre :: step.1, some e)
      | none =>
          let next := uploadLoop session respOf total rest (completed + 1)
          (pre :: step.1 ++ next.1, next.2)

/-- Embeds `sendFiles` from the negotiated session on (transfer.ts
lines 251-272): an empty sessionId returns at once, otherwise the
per-file loop runs and, when it completes, the final progress call with
currentIndex = totalCount is emitted. -/
def sendAfterPrepare (session : TransferSession) (files : List FileInfo)
    (respOf : String → Nat) : List Event × Option SendError :=
  if session.sessionId = "" then ([], none)
  else
    let run := uploadLoop session respOf files.length files 0
    match run.2 with
    | none => (run.1 ++ [Event.progress files.length files.length ""], none)
    | some e => (run.1, some e)

/-- Embeds the cataloging loop of `sendFiles` (transfer.ts lines
239-246): each path is checked and described in order; the first
unreadable path throws, before any network request exists.  `ids n` is
the n-th generated uuid. -/
def catalogPhase (fsys : String → Option FileData) (ids : Nat → String) :
    List String → Nat → Except String (List FileInfo)
  | [], _ => .ok []
  | p :: rest, n =>
      match fsys p with
      | none => .error p
      | some fd =>
          match catalogPhase fsys ids rest (n + 1) with
          | .ok l => .ok (createFileInfo (ids n) p fd :: l)
          | .error e => .error e

/-- Embeds the whole of `sendFiles` (transfer.ts lines 234-273):
catalog every file, negotiate, then upload.  The receiver's behaviour
is the prepare-upload response (status, parsed body) and an upload
response status per file id. -/
def sendFiles (fsys : String → Option FileData) (ids : Nat → String)
    (paths : List String) (prepStatus : Nat) (prepBody : Option TransferSession)
    (respOf : String → Nat) : List Event × Option SendError :=
  match catalogPhase fsys ids paths 0 with
  | .error p => ([], some (.fileNotFound p))
  | .ok fileInfos =>
      match prepareUpload prepStatus prepBody with
      | .error e => ([.netPrepare], some (.transferRejected e))
      | .ok session =>
          let after := sendAfterPrepare session fileInfos respOf
          (.netPrepare :: after.1, after.2)

/-- The trace the upload loop is specified to produce on an
all-successful run starting at completed-count `i`: one progress call
before each file, then its upload request. -/
def expectedTrace (total : Nat) : Nat → List FileInfo → List Event
  | _, [] => []
  | i, fi :: rest =>
      .progress i total fi.fileName :: .netUpload fi.id :: expectedTrace total (i + 1) rest

/-- Concrete file descriptors and sessions used in witnesses. -/
def fiA : FileInfo :=
  { id := "f1", fileName := "a.txt", size := 1, fileType := "text/plain"
    sha256 := none, modified := none, accessed := none }

/-- Second concrete file descriptor for witnesses. -/
def fiB : FileInfo :=
  { id := "f2", fileName := "b.png", size := 2, fileType := "image/png"
    sha256 := none, modified := none, accessed := none }

/-- A session holding tokens for both witness files. -/
def sessAB : TransferSession := { sessionId := "s1", files := [("f1", "t1"), ("f2", "t2")] }

/-- A session missing the token for the second witness file. -/
def sessA : TransferSession := { sessionId := "s1", files := [("f1", "t1")] }


/-- C1: the status-to-outcome mapping of negotiation: 200 returns the
parsed body verbatim; 400, 401, 403, 409, 429, 500 fail with their
respective messages; every other non-200/204 status fails with
"Upload rejected". -/
theorem prepareUpload_status_mapping (status : Nat)
    (bodyParse : Option TransferSession) :
    (∀ s, status = 200 → bodyParse = some s → prepareUpload status bodyParse = .ok s) ∧
    (status = 400 → prepareUpload status bodyParse = .error (.mapped "Invalid request")) ∧
    (status = 401 → prepareUpload status bodyParse = .error (.mapped "PIN required")) ∧
    (status = 403 → prepareUpload status bodyParse = .error (.mapped "Request rejected by receiver")) ∧
    (status = 409 → prepareUpload status bodyParse = .error (.mapped "Receiver is busy with another transfer")) ∧
    (status = 429 → prepareUpload status bodyParse = .error (.mapped "Too many requests")) ∧
    (status = 500 → prepareUpload status bodyParse = .error (.mapped "Receiver error")) ∧
    (status ≠ 200 → status ≠ 204 →
      status ∉ ([400, 401, 403, 409, 429, 500] : List Nat) →
      prepareUpload status bodyParse = .error (.mapped "Upload rejected")) := by
  refine ⟨?_, ?_, ?_, ?_, ?_, ?_, ?_, ?_⟩
  · rintro s rfl rfl
    rfl
  · rintro rfl
    rfl
  · rintro rfl
    rfl
  · rintro rfl
    rfl
  · rintro rfl
    rfl
  · rintro rfl
    rfl
  · rintro rfl
    rfl
  · intro h200 h204 hmem
    simp only [List.mem_cons, List.not_mem_nil, or_false] at hmem
    push_neg at hmem
    obtain ⟨h400, h401, h403, h409, h429, h500⟩ := hmem
    simp [prepareUpload, errorMsgFor, h200, h204, h400, h401, h403, h409, h429, h500]

/-- Witness for C1 at a concrete input: status 409 maps to the busy
message. -/
theorem prepareUpload_status_mapping_witness :
    prepareUpload 409 none = .error (.mapped "Receiver is busy with another transfer") :=
  (prepareUpload_status_mapping 409 none).2.2.2.2.1 rfl

/-- C10: a 200 response whose body is not valid JSON fails with the raw
JSON parse error, which is distinct from every mapped human-readable
message, and is not the sentinel session (nor any success). -/
theorem prepareUpload_200_bad_json :
    prepareUpload 200 none = .error .jsonParse ∧
    (∀ msg, (.jsonParse : PrepError) ≠ .mapped msg) ∧
    (∀ s, prepareUpload 200 none ≠ .ok s) := by
  refine ⟨rfl, ?_, ?_⟩
  · intro msg h
    cases h
  · intro s h
    cases h


/-- C2: a probe yields a device only when the body parses; the yielded
device takes its fields from the response, except that protocol
defaults to "https" when omitted, port defaults to 53317 when omitted,
and the ip is always the probed target address, never the body's ip
field.  Parse failure, connection error and timeout yield nothing with
no error surfaced. -/
theorem registerWithDevice_spec (ip : String) (r : ProbeOutcome) :
    (∀ d, registerWithDevice ip DEFAULT_PORT r = some d →
      ∃ raw, r = .parsed raw ∧
        d.ip = ip ∧
        d.«alias» = raw.«alias» ∧
        d.version = raw.version ∧
        d.deviceModel = raw.deviceModel ∧
        d.deviceType = raw.deviceType ∧
        d.fingerprint = raw.fingerprint ∧
        d.download = raw.download ∧
        (raw.protocol = none → d.protocol = "https") ∧
        (∀ p, raw.protocol = some p → p ≠ "" → d.protocol = p) ∧
        (raw.port = none → d.port = 53317) ∧
        (∀ n, raw.port = some n → n ≠ 0 → d.port = n)) ∧
    ((r = .parseFailure ∨ r = .connError ∨ r = .timeout) →
      registerWithDevice ip DEFAULT_PORT r = none) := by
  constructor
  · intro d hd
    cases r with
    | parsed raw =>
        refine ⟨raw, rfl, ?_⟩
        simp only [registerWithDevice, Option.some_inj] at hd
        subst hd
        refine ⟨rfl, rfl, rfl, rfl, rfl, rfl, rfl, ?_, ?_, ?_, ?_⟩
        · intro h
          simp [jsOrString, h]
        · intro p hp hne
          simp [jsOrString, hp, hne]
        · intro h
          simp [jsOrNat, h, DEFAULT_PORT]
        · intro n hn hne
          simp [jsOrNat, hn, hne]
    | parseFailure => simp [registerWithDevice] at hd
    | connError => simp [registerWithDevice] at hd
    | timeout => simp [registerWithDevice] at hd
  · rintro (rfl | rfl | rfl) <;> rfl

/-- Witness for C2 at a concrete probe: a parsed body that omits
protocol and port and carries a spoofed ip field yields the device with
protocol "https", port 53317 and the probed address. -/
theorem registerWithDevice_spec_witness :
    ∃ raw, ProbeOutcome.parsed spoofRaw = .parsed raw ∧
      yieldedDev.ip = "192.168.1.9" ∧
      yieldedDev.«alias» = raw.«alias» ∧
      yieldedDev.version = raw.version ∧
      yieldedDev.deviceModel = raw.deviceModel ∧
      yieldedDev.deviceType = raw.deviceType ∧
      yieldedDev.fingerprint = raw.fingerprint ∧
      yieldedDev.download = raw.download ∧
      (raw.protocol = none → yieldedDev.protocol = "https") ∧
      (∀ p, raw.protocol = some p → p ≠ "" → yieldedDev.protocol = p) ∧
      (raw.port = none → yieldedDev.port = 53317) ∧
      (∀ n, raw.port = some n → n ≠ 0 → yieldedDev.port = n) :=
  (registerWithDevice_spec "192.168.1.9" (.parsed spoofRaw)).1 yieldedDev rfl

/-- C7: discovery never surfaces an error: with zero qualifying local
addresses the result is the empty list, and whenever every probe fails
(or is abandoned) the result is the empty list rather than an error. -/
theorem scanNetwork_no_error (outcome : String → String → ProbeOutcome) :
    scanNetwork [] outcome = [] ∧
    (∀ localIPs,
      (∀ t proto, registerWithDevice t DEFAULT_PORT (outcome t proto) = none) →
      scanNetwork localIPs outcome = []) := by
  constructor
  · rfl
  · intro localIPs h
    unfold scanNetwork
    rw [List.filterMap_eq_nil_iff]
    intro t _
    exact h t.1 t.2

/-- Witness for C7: a host with one local address where every probe
times out yields the empty list. -/
theorem scanNetwork_no_error_witness :
    scanNetwork ["192.168.1.7"] (fun _ _ => .timeout) = [] :=
  (scanNetwork_no_error (fun _ _ => .timeout)).2 ["192.168.1.7"] (fun _ _ => rfl)

/-- One flatMap step cannot produce more than k elements per input. -/
theorem length_flatMap_le {α β : Type} (l : List α) (f : α → List β) (k : Nat)
    (h : ∀ a, (f a).length ≤ k) : (l.flatMap f).length ≤ l.length * k := by
  induction l with
  | nil => simp
  | cons a t ih =>
      have := h a
      simp only [List.flatMap_cons, List.length_append, List.length_cons, Nat.succ_mul]
      omega

/-- C9 (amended): the discovery result length never exceeds
(number of local addresses × 254 × 2); each (local address, host
suffix, protocol) triple contributes at most one device. -/
theorem scanNetwork_length_bound (localIPs : List String)
    (outcome : String → String → ProbeOutcome) :
    (scanNetwork localIPs outcome).length ≤ localIPs.length * (254 * 2) := by
  have h1 : (scanNetwork localIPs outcome).length ≤ (probeTargets localIPs).length :=
    List.length_filterMap_le _ _
  have h2 : (probeTargets localIPs).length ≤ localIPs.length * (254 * 2) := by
    apply length_flatMap_le
    intro ip
    have h3 : ∀ i : Nat,
        ((fun i =>
          let targetIP := mkTarget (subnetOf ip) i
          if localIPs.contains targetIP then ([] : List (String × String))
          else [(targetIP, "https"), (targetIP, "http")]) i).length ≤ 2 := by
      intro i
      simp only
      split <;> simp
    have := length_flatMap_le (List.range' 1 254) _ 2 h3
    simpa [List.length_range'] using this
  omega

/-- C9 counterexample: with two local addresses on the same /24 subnet
and every probe answering, the result has 1008 devices, exceeding
(number of distinct local subnets = 1) × 254 × 2 = 508: the per-subnet
bound fails because the scan iterates per local address, probing a
shared subnet twice. -/
theorem scanNetwork_subnet_bound_counterexample :
    ((["10.0.0.1", "10.0.0.2"].map subnetOf).dedup.length = 1 ∧
      (scanNetwork ["10.0.0.1", "10.0.0.2"] (fun _ _ => .parsed spoofRaw)).length = 1008) ∧
    ¬ (scanNetwork ["10.0.0.1", "10.0.0.2"] (fun _ _ => .parsed spoofRaw)).length ≤
        (["10.0.0.1", "10.0.0.2"].map subnetOf).dedup.length * (254 * 2) := by
  constructor
  · constructor
    · decide
    · decide
  · decide


/-- Unfolding `processBuf` on a buffer holding a complete block. -/
theorem processBuf_pos (s buf : List Nat) (h : 64 ≤ buf.length) :
    processBuf s buf = processBuf (compress s (buf.take 64)) (buf.drop 64) := by
  conv => lhs; rw [processBuf]
  exact dif_pos h

/-- Unfolding `processBuf` on a buffer shorter than a block. -/
theorem processBuf_neg (s buf : List Nat) (h : ¬ 64 ≤ buf.length) :
    processBuf s buf = (s, buf) := by
  conv => lhs; rw [processBuf]
  exact dif_neg h

/-- Compressing the complete blocks of `buf ++ extra` is the same as
compressing those of `buf` first and carrying the partial block into
`extra`: the hash accumulator is indifferent to chunk boundaries. -/
theorem processBuf_append (s buf extra : List Nat) :
    processBuf s (buf ++ extra) =
      processBuf (processBuf s buf).1 ((processBuf s buf).2 ++ extra) := by
  induction s, buf using processBuf.induct with
  | case1 s buf hge ih =>
      have h1 : 64 ≤ (buf ++ extra).length := by
        rw [List.length_append]
        omega
      rw [processBuf_pos s (buf ++ extra) h1,
        List.take_append_of_le_length hge, List.drop_append_of_le_length hge,
        processBuf_pos s buf hge]
      exact ih
  | case2 s buf hlt =>
      rw [processBuf_neg s buf hlt]

/-- Two consecutive updates absorb the concatenation of their chunks. -/
theorem hashUpdate_append (c : HashCtx) (a b : List Nat) :
    hashUpdate (hashUpdate c a) b = hashUpdate c (a ++ b) := by
  unfold hashUpdate
  simp only [HashCtx.mk.injEq]
  rw [← List.append_assoc, processBuf_append c.hs (c.buf ++ a) b]
  refine ⟨rfl, rfl, ?_⟩
  rw [List.length_append]
  omega

/-- Folding updates over a chunk list absorbs the flattened content. -/
theorem foldl_hashUpdate (chunks : List (List Nat)) (c : HashCtx) (x : List Nat) :
    chunks.foldl hashUpdate (hashUpdate c x) = hashUpdate c (x ++ chunks.flatten) := by
  induction chunks generalizing x with
  | nil => simp
  | cons a rest ih =>
      rw [List.foldl_cons, hashUpdate_append, ih, List.flatten_cons, List.append_assoc]

/-- C8: the SHA-256 digest computed by streaming the file
chunk-by-chunk through the hash accumulator equals the SHA-256 of the
whole file computed in one buffered pass, whatever the chunking — in
particular for the empty (zero-byte) file. -/
theorem calculateSha256_eq_buffered (content : List Nat)
    (chunks : List (List Nat)) (h : chunks.flatten = content) :
    calculateSha256 chunks = sha256Hex content := by
  subst h
  unfold calculateSha256
  have h0 : hashInit = hashUpdate hashInit [] := by
    unfold hashUpdate hashInit
    rw [processBuf_neg _ _ (by simp)]
    simp
  rw [h0, foldl_hashUpdate]
  unfold hashDigest hashUpdate sha256Hex
  simp only
  rw [← processBuf_append]
  simp [hashInit]

/-- Witness for C8 at a concrete chunking: a three-byte file split into
a two-byte and a one-byte chunk streams to the buffered digest; the
zero-byte file with no chunks does too. -/
theorem calculateSha256_eq_buffered_witness :
    calculateSha256 [[104, 105], [33]] = sha256Hex [104, 105, 33] ∧
    calculateSha256 [] = sha256Hex [] :=
  ⟨calculateSha256_eq_buffered [104, 105, 33] [[104, 105], [33]] rfl,
   calculateSha256_eq_buffered [] [] rfl⟩


/-- With a token for every file and all responses successful, the
per-file loop produces exactly the expected trace and no error. -/
theorem uploadLoop_ok (session : TransferSession) (respOf : String → Nat) (total : Nat)
    (files : List FileInfo) (start : Nat)
    (htok : ∀ fi ∈ files, tokenFor session fi.id ≠ none)
    (hresp : ∀ fi ∈ files, respOf fi.id = 200 ∨ respOf fi.id = 204) :
    uploadLoop session respOf total files start = (expectedTrace total start files, none) := by
  induction files generalizing start with
  | nil => rfl
  | cons fi rest ih =>
      have ht := htok fi (by simp)
      have hr := hresp fi (by simp)
      have hcond : ¬ (respOf fi.id ≠ 200 ∧ respOf fi.id ≠ 204) := by tauto
      cases htk : tokenFor session fi.id with
      | none => exact absurd htk ht
      | some t =>
          unfold uploadLoop uploadFile
          rw [htk, if_neg hcond]
          simp only
          rw [ih (start + 1) (fun f hf => htok f (by simp [hf]))
            (fun f hf => hresp f (by simp [hf]))]
          rfl

/-- Upload events in an expected trace name exactly the ids of the
files it covers. -/
theorem expectedTrace_upload_mem (total : Nat) (files : List FileInfo) :
    ∀ start e, e ∈ expectedTrace total start files → e.isUpload = true →
      ∃ f ∈ files, e = .netUpload f.id := by
  induction files with
  | nil => intro start e he _; simp [expectedTrace] at he
  | cons fi rest ih =>
      intro start e he hu
      unfold expectedTrace at he
      rcases List.mem_cons.mp he with rfl | he2
      · simp [Event.isUpload] at hu
      · rcases List.mem_cons.mp he2 with rfl | he3
        · exact ⟨fi, by simp, rfl⟩
        · obtain ⟨f, hf, hfe⟩ := ih (start + 1) e he3 hu
          exact ⟨f, by simp [hf], hfe⟩

/-- The expected trace holds one upload request per file. -/
theorem expectedTrace_count_upload (total : Nat) (files : List FileInfo) :
    ∀ start, (expectedTrace total start files).countP Event.isUpload = files.length := by
  induction files with
  | nil => intro start; rfl
  | cons fi rest ih =>
      intro start
      unfold expectedTrace
      rw [List.countP_cons, List.countP_cons, ih (start + 1)]
      simp [Event.isUpload]

/-- The expected trace holds one progress call per file. -/
theorem expectedTrace_count_progress (total : Nat) (files : List FileInfo) :
    ∀ start, (expectedTrace total start files).countP Event.isProgress = files.length := by
  induction files with
  | nil => intro start; rfl
  | cons fi rest ih =>
      intro start
      unfold expectedTrace
      rw [List.countP_cons, List.countP_cons, ih (start + 1)]
      simp [Event.isProgress]

/-- C3: with a non-sentinel session holding a token for each of the N
files and every upload answered 200 or 204, upload issues exactly N
requests, sequentially in input order, and the progress callback runs
N+1 times: before each file with currentIndex = files already
completed, and finally with currentIndex = N. -/
theorem sendFiles_upload_happy (session : TransferSession) (files : List FileInfo)
    (respOf : String → Nat)
    (hses : session.sessionId ≠ "")
    (htok : ∀ fi ∈ files, tokenFor session fi.id ≠ none)
    (hresp : ∀ fi ∈ files, respOf fi.id = 200 ∨ respOf fi.id = 204) :
    sendAfterPrepare session files respOf =
      (expectedTrace files.length 0 files ++
        [Event.progress files.length files.length ""], none) ∧
    (expectedTrace files.length 0 files ++
      [Event.progress files.length files.length ""]).countP Event.isUpload = files.length ∧
    (expectedTrace files.length 0 files ++
      [Event.progress files.length files.length ""]).countP Event.isProgress = files.length + 1 := by
  refine ⟨?_, ?_, ?_⟩
  · unfold sendAfterPrepare
    rw [if_neg hses]
    simp only
    rw [uploadLoop_ok session respOf files.length files 0 htok hresp]
  · rw [List.countP_append, expectedTrace_count_upload]
    simp [List.countP_cons, Event.isUpload]
  · rw [List.countP_append, expectedTrace_count_progress]
    simp [List.countP_cons, Event.isProgress]

/-- Witness for C3: two files, both with tokens, both uploads 200. -/
theorem sendFiles_upload_happy_witness :
    sendAfterPrepare sessAB [fiA, fiB] (fun _ => 200) =
      (expectedTrace 2 0 [fiA, fiB] ++ [Event.progress 2 2 ""], none) ∧
    (expectedTrace 2 0 [fiA, fiB] ++ [Event.progress 2 2 ""]).countP Event.isUpload = 2 ∧
    (expectedTrace 2 0 [fiA, fiB] ++ [Event.progress 2 2 ""]).countP Event.isProgress = 2 + 1 :=
  sendFiles_upload_happy sessAB [fiA, fiB] (fun _ => 200)
    (by decide) (by decide) (by decide)

/-- A missing token for the file after `pre` stops the loop: the happy
trace for `pre`, one more progress call for the offending file, no
request for it or anything later, and the missing-token error. -/
theorem uploadLoop_missing (session : TransferSession) (respOf : String → Nat) (total : Nat)
    (pre post : List FileInfo) (fi : FileInfo) (start : Nat)
    (htok : ∀ f ∈ pre, tokenFor session f.id ≠ none)
    (hresp : ∀ f ∈ pre, respOf f.id = 200 ∨ respOf f.id = 204)
    (hmiss : tokenFor session fi.id = none) :
    uploadLoop session respOf total (pre ++ fi :: post) start =
      (expectedTrace total start pre ++
        [Event.progress (start + pre.length) total fi.fileName],
        some (.missingToken fi.fileName)) := by
  induction pre generalizing start with
  | nil =>
      rw [List.nil_append]
      unfold uploadLoop uploadFile
      rw [hmiss]
      simp [expectedTrace]
  | cons p rest ih =>
      have ht := htok p (by simp)
      have hr := hresp p (by simp)
      have hcond : ¬ (respOf p.id ≠ 200 ∧ respOf p.id ≠ 204) := by tauto
      cases htk : tokenFor session p.id with
      | none => exact absurd htk ht
      | some t =>
          show uploadLoop session respOf total (p :: (rest ++ fi :: post)) start = _
          unfold uploadLoop uploadFile
          rw [htk, if_neg hcond]
          simp only
          rw [ih (start + 1) (fun f hf => htok f (by simp [hf]))
            (fun f hf => hresp f (by simp [hf]))]
          simp only [List.nil_append, List.length_cons]
          have hidx : start + (rest.length + 1) = start + 1 + rest.length := by omega
          rw [hidx]
          rfl

/-- C4: when the session holds tokens for files 1..k-1 but not for the
k-th file (and the first k-1 uploads succeed), upload issues requests
only for files 1..k-1, none for file k or later, and fails with the
missing-token error naming file k; every upload event of the run names
one of the first k-1 files. -/
theorem sendFiles_missing_token (session : TransferSession) (respOf : String → Nat)
    (pre post : List FileInfo) (fi : FileInfo)
    (hses : session.sessionId ≠ "")
    (htok : ∀ f ∈ pre, tokenFor session f.id ≠ none)
    (hresp : ∀ f ∈ pre, respOf f.id = 200 ∨ respOf f.id = 204)
    (hmiss : tokenFor session fi.id = none) :
    sendAfterPrepare session (pre ++ fi :: post) respOf =
      (expectedTrace (pre ++ fi :: post).length 0 pre ++
        [Event.progress pre.length (pre ++ fi :: post).length fi.fileName],
        some (.missingToken fi.fileName)) ∧
    (∀ e ∈ expectedTrace (pre ++ fi :: post).length 0 pre ++
        [Event.progress pre.length (pre ++ fi :: post).length fi.fileName],
      e.isUpload = true → ∃ f ∈ pre, e = .netUpload f.id) := by
  constructor
  · unfold sendAfterPrepare
    rw [if_neg hses]
    simp only
    rw [uploadLoop_missing session respOf (pre ++ fi :: post).length pre post fi 0
      htok hresp hmiss]
    simp
  · intro e he hu
    rcases List.mem_append.mp he with he | he
    · exact expectedTrace_upload_mem _ pre 0 e he hu
    · simp at he
      rw [he] at hu
      simp [Event.isUpload] at hu

/-- Witness for C4: the session has a token for the first file only;
the run uploads file one, reports progress on file two, and fails with
the missing-token error for file two. -/
theorem sendFiles_missing_token_witness :
    sendAfterPrepare sessA ([fiA] ++ fiB :: []) (fun _ => 200) =
      (expectedTrace ([fiA] ++ fiB :: []).length 0 [fiA] ++
        [Event.progress 1 ([fiA] ++ fiB :: []).length fiB.fileName],
        some (.missingToken fiB.fileName)) ∧
    (∀ e ∈ expectedTrace ([fiA] ++ fiB :: []).length 0 [fiA] ++
        [Event.progress 1 ([fiA] ++ fiB :: []).length fiB.fileName],
      e.isUpload = true → ∃ f ∈ [fiA], e = .netUpload f.id) :=
  sendFiles_missing_token sessA (fun _ => 200) [fiA] [] fiB
    (by decide) (by decide) (by decide) (by decide)

/-- A fully readable path list catalogs successfully. -/
theorem catalogPhase_ok (fsys : String → Option FileData) (ids : Nat → String)
    (paths : List String) (h : ∀ p ∈ paths, fsys p ≠ none) :
    ∀ n, ∃ l, catalogPhase fsys ids paths n = .ok l := by
  induction paths with
  | nil => intro n; exact ⟨[], rfl⟩
  | cons p rest ih =>
      intro n
      cases hp : fsys p with
      | none => exact absurd hp (h p (by simp))
      | some fd =>
          obtain ⟨l, hl⟩ := ih (fun q hq => h q (by simp [hq])) (n + 1)
          refine ⟨createFileInfo (ids n) p fd :: l, ?_⟩
          unfold catalogPhase
          rw [hp, hl]

/-- C5: a 204 prepare-upload response yields the sentinel session and
skips the whole upload phase — the only network request of the run is
the prepare-upload itself and the transfer completes without error;
and, in general, any session with an empty sessionId issues no upload
request. -/
theorem sendFiles_204_no_upload (fsys : String → Option FileData) (ids : Nat → String)
    (paths : List String) (bodyParse : Option TransferSession) (respOf : String → Nat)
    (hreadable : ∀ p ∈ paths, fsys p ≠ none) :
    sendFiles fsys ids paths 204 bodyParse respOf = ([.netPrepare], none) ∧
    (∀ session files resp2, session.sessionId = "" →
      sendAfterPrepare session files resp2 = ([], none)) := by
  constructor
  · obtain ⟨l, hl⟩ := catalogPhase_ok fsys ids paths hreadable 0
    unfold sendFiles
    rw [hl]
    rfl
  · intro session files resp2 hs
    unfold sendAfterPrepare
    rw [if_pos hs]

/-- Witness for C5: one readable file, prepare answered 204. -/
theorem sendFiles_204_no_upload_witness :
    sendFiles (fun _ => some { content := [1], mtimeIso := "m", atimeIso := "a" })
      (fun _ => "id0") ["a.txt"] 204 none (fun _ => 200) = ([.netPrepare], none) ∧
    (∀ session files resp2, session.sessionId = "" →
      sendAfterPrepare session files resp2 = ([], none)) :=
  sendFiles_204_no_upload (fun _ => some { content := [1], mtimeIso := "m", atimeIso := "a" })
    (fun _ => "id0") ["a.txt"] none (fun _ => 200) (by simp)

/-- A path list with an unreadable member fails cataloging at its first
unreadable path, whatever the id counter. -/
theorem catalogPhase_fails (fsys : String → Option FileData) (ids : Nat → String)
    (paths : List String) (h : ∃ p ∈ paths, fsys p = none) :
    ∃ q ∈ paths, fsys q = none ∧ ∀ n, catalogPhase fsys ids paths n = .error q := by
  induction paths with
  | nil => simp at h
  | cons p rest ih =>
      cases hp : fsys p with
      | none =>
          refine ⟨p, by simp, hp, fun n => ?_⟩
          unfold catalogPhase
          rw [hp]
      | some fd =>
          have hrest : ∃ q ∈ rest, fsys q = none := by
            obtain ⟨q, hq, hqn⟩ := h
            rcases List.mem_cons.mp hq with rfl | hq2
            · rw [hp] at hqn; cases hqn
            · exact ⟨q, hq2, hqn⟩
          obtain ⟨q, hq1, hq2, hq3⟩ := ih hrest
          refine ⟨q, by simp [hq1], hq2, fun n => ?_⟩
          unfold catalogPhase
          rw [hp, hq3 (n + 1)]

/-- C6: with any unreadable path in the list, the transfer fails with
the local file-not-found error during cataloging, and the run's trace
is empty — zero network requests, prepare-upload included (cataloging
runs entirely before the first network call). -/
theorem sendFiles_unreadable_no_network (fsys : String → Option FileData)
    (ids : Nat → String) (paths : List String) (prepStatus : Nat)
    (prepBody : Option TransferSession) (respOf : String → Nat)
    (h : ∃ p ∈ paths, fsys p = none) :
    ∃ q ∈ paths, fsys q = none ∧
      sendFiles fsys ids paths prepStatus prepBody respOf =
        ([], some (.fileNotFound q)) := by
  obtain ⟨q, hq, hqn, hcat⟩ := catalogPhase_fails fsys ids paths h
  refine ⟨q, hq, hqn, ?_⟩
  unfold sendFiles
  rw [hcat 0]

/-- Witness for C6: a single nonexistent path fails with its
file-not-found error and an empty trace. -/
theorem sendFiles_unreadable_no_network_witness :
    ∃ q ∈ ["nope.bin"], (fun _ => (none : Option FileData)) q = none ∧
      sendFiles (fun _ => none) (fun _ => "id0") ["nope.bin"] 200 none (fun _ => 200) =
        ([], some (.fileNotFound q)) :=
  sendFiles_unreadable_no_network (fun _ => none) (fun _ => "id0") ["nope.bin"]
    200 none (fun _ => 200) ⟨"nope.bin", by simp, rfl⟩

end LocalSend
